import Mathlib

/-!
The WebSocket communicator of the VMTurbo Go SDK.

A shallow embedding of `communicator/communicator.go`:

* `handleServerMessage` routes one decoded server message to the handler set;
* `SendClientMessage` marshals a client message and writes it to the socket;
* `RegisterAndListen` / `CloseAndRegisterAgain` are the two mutually recursive
  procedures that dial, register, read and reconnect.

The external world (the websocket library, the protobuf codec, the clock and the
handler set) is made explicit: every external call appends an `Event` to a trace,
and the outcomes of dials, writes and reads are taken from scripts held in the
state.  Procedures carry a fuel argument that bounds call depth and loop
iterations; a run that uses up its fuel stops with `Outcome.outOfFuel` and the
state reached so far.
-/

namespace Communicator

/-! ## Data model -/

/-- Raw bytes, one natural number below 256 per byte. -/
abbrev Bytes := List Nat

/-- Modelled from the spec: the generated protobuf type `MediationServerMessage`
is not among the sources.  The router only consults four getters, each of which
returns nil or a payload; a message is modelled by the four results.  Payloads
are opaque and stand for the nested request messages. -/
structure MediationServerMessage where
  Ack : Option Nat
  ValidationRequest : Option Nat
  DiscoveryRequest : Option Nat
  ActionRequest : Option Nat
deriving DecidableEq, Repr

/-- Modelled from the spec: the generated protobuf type `MediationClientMessage`
is not among the sources.  The router only consults `GetContainerInfo`; the rest
of the message is an opaque payload. -/
structure MediationClientMessage where
  ContainerInfo : Option Nat
  Other : Nat
deriving DecidableEq, Repr

def MediationServerMessage.GetAck (m : MediationServerMessage) : Option Nat := m.Ack

def MediationServerMessage.GetValidationRequest (m : MediationServerMessage) : Option Nat :=
  m.ValidationRequest

def MediationServerMessage.GetDiscoveryRequest (m : MediationServerMessage) : Option Nat :=
  m.DiscoveryRequest

def MediationServerMessage.GetActionRequest (m : MediationServerMessage) : Option Nat :=
  m.ActionRequest

def MediationClientMessage.GetContainerInfo (m : MediationClientMessage) : Option Nat :=
  m.ContainerInfo

/-- One invocation of an operation of the `ServerMessageHandler` interface. -/
inductive HandlerCall where
  | AddTarget
  | Validate (serverMsg : MediationServerMessage)
  | DiscoverTopology (serverMsg : MediationServerMessage)
  | HandleAction (serverMsg : MediationServerMessage)
deriving DecidableEq, Repr

/-- An implementation of the `ServerMessageHandler` interface; only its identity
matters here, the calls made on it are reported as `HandlerCall`s. -/
structure ServerMessageHandler where
  id : Nat
deriving DecidableEq, Repr

/-- A live `*websocket.Conn`, identified by a number chosen by the dialer. -/
structure Conn where
  id : Nat
deriving DecidableEq, Repr

/-- The struct `WebSocketCommunicator`; a nil `ServerMsgHandler` or `ws` is `none`. -/
structure WebSocketCommunicator where
  VmtServerAddress : String
  LocalAddress : String
  ServerUsername : String
  ServerPassword : String
  ServerMsgHandler : Option ServerMessageHandler
  ws : Option Conn
deriving DecidableEq, Repr

/-! ## Routing -/

/-- The method `handleServerMessage` (lines 31-53): the list of handler operations
it invokes, in order.  The log statements are dropped. -/
def handleServerMessage (wsc : WebSocketCommunicator) (serverMsg : MediationServerMessage)
    (clientMsg : MediationClientMessage) : List HandlerCall :=
  if wsc.ServerMsgHandler = none then
    []
  else if serverMsg.GetAck ≠ none ∧ clientMsg.GetContainerInfo ≠ none then
    [HandlerCall.AddTarget]
  else if serverMsg.GetValidationRequest ≠ none then
    [HandlerCall.Validate serverMsg]
  else if serverMsg.GetDiscoveryRequest ≠ none then
    [HandlerCall.DiscoverTopology serverMsg]
  else if serverMsg.GetActionRequest ≠ none then
    [HandlerCall.HandleAction serverMsg]
  else
    []

/-! ## The external world -/

/-- Result of `websocket.DialConfig`: a connection, or an error together with a
nil connection. -/
inductive DialResult where
  | ok (webs : Conn)
  | err
deriving DecidableEq, Repr

/-- The connection returned by a dial, nil on error. -/
def DialResult.webs : DialResult → Option Conn
  | DialResult.ok c => some c
  | DialResult.err => none

/-- Result of `proto.Marshal`: an error, a nil slice, or the encoded bytes. -/
inductive MarshalResult where
  | err
  | nilBytes
  | bytes (b : Bytes)
deriving DecidableEq, Repr

/-- Result of one `ws.Read(msg)`: an error, or the `n` bytes `msg[:n]` that were
placed in the buffer. -/
inductive ReadResult where
  | err
  | data (b : Bytes)
deriving DecidableEq, Repr

/-- What arrives on the socket: a complete message frame, or a failure of the
connection. -/
inductive Inbound where
  | frame (payload : Bytes)
  | fail
deriving DecidableEq, Repr

/-- The three places where the process is ended by `glog.Fatal`: a failing
`websocket.NewConfig`, a failing `proto.Marshal` and a failing `proto.Unmarshal`. -/
inductive FatalCause where
  | newConfig
  | marshal
  | unmarshal
deriving DecidableEq, Repr

/-- Observable actions of the communicator, in the order they happen. -/
inductive Event where
  | dial (r : DialResult)
  | nilSocket
  | nilMarshalled
  | send (c : Conn) (b : Bytes) (failed : Bool)
  | read (c : Conn) (r : ReadResult)
  | dispatch (serverMsg : MediationServerMessage) (clientMsg : MediationClientMessage)
  | close (c : Conn)
  | sleep (seconds : Nat)
  | fatal (cause : FatalCause)
deriving DecidableEq, Repr

/-- The pure collaborators: the URL parser behind `websocket.NewConfig` and the
protobuf codec. -/
structure Env where
  newConfigFails : String → String → Bool
  Marshal : MediationClientMessage → MarshalResult
  Unmarshal : Bytes → Option MediationServerMessage

/-- How a procedure stops. `returned` is a normal return to the caller, `fatal`
is `glog.Fatal` (the process exits), `nilDeref` is the panic of a method call on
a nil `*websocket.Conn`, `blocked` is an external call whose script is used up
(it never returns), `outOfFuel` is the cut-off of the model. -/
inductive Outcome where
  | returned
  | fatal
  | nilDeref
  | blocked
  | outOfFuel
deriving DecidableEq, Repr

/-- The communicator together with the trace so far and the scripted outcomes of
the dials, of the writes and of the socket input that are still to come. -/
structure State where
  wsc : WebSocketCommunicator
  trace : List Event
  dials : List DialResult
  sends : List Bool
  inbound : List Inbound
deriving DecidableEq, Repr

/-- Appends one event to the trace. -/
def State.emit (st : State) (e : Event) : State :=
  { st with trace := st.trace ++ [e] }

/-- Assigns the field `wsc.ws`. -/
def State.setWs (st : State) (c : Option Conn) : State :=
  { st with wsc := { st.wsc with ws := c } }

/-- The method `Read` of `websocket.Conn` of golang.org/x/net/websocket, as its
documentation describes it: it reads data of a frame; when the buffer is not
large enough for the frame data it fills the buffer and the next `Read` reads the
rest of the frame.  A frame with no data left is skipped.  The result is the
outcome of the read and the input that remains, or `none` when nothing is left
to arrive (the call blocks).  This is the most favourable behaviour of the
library: every read delivers as much of the current frame as the buffer holds.
The real `Read` may deliver less (what its buffered reader holds at that moment),
so a frame can arrive in more and smaller pieces than here, never in fewer. -/
def connRead (bufLen : Nat) : List Inbound → Option (ReadResult × List Inbound)
  | [] => none
  | Inbound.fail :: rest => some (ReadResult.err, rest)
  | Inbound.frame payload :: rest =>
    if payload = [] then connRead bufLen rest
    else if payload.length ≤ bufLen then some (ReadResult.data payload, rest)
    else some (ReadResult.data (payload.take bufLen),
      Inbound.frame (payload.drop bufLen) :: rest)

/-! ## The procedures -/

/-- Sequencing: the continuation runs only when the first part returned normally;
any other outcome ends the whole computation. -/
def thenDo (r : Outcome × State) (k : State → Outcome × State) : Outcome × State :=
  match r with
  | (Outcome.returned, st) => k st
  | r => r

/-- The method `SendClientMessage` (lines 55-71). The error returned by
`websocket.Message.Send` is discarded by the source; it is kept in the event. -/
def SendClientMessage (env : Env) (clientMsg : MediationClientMessage) (st : State) :
    Outcome × State :=
  match env.Marshal clientMsg with
  | MarshalResult.err => (Outcome.fatal, st.emit (Event.fatal FatalCause.marshal))
  | MarshalResult.nilBytes =>
    match st.wsc.ws with
    | none => (Outcome.returned, st.emit Event.nilSocket)
    | some _ => (Outcome.returned, st.emit Event.nilMarshalled)
  | MarshalResult.bytes msgMarshalled =>
    match st.wsc.ws with
    | none => (Outcome.returned, st.emit Event.nilSocket)
    | some c =>
      match st.sends with
      | [] => (Outcome.blocked, st)
      | failed :: rest =>
        (Outcome.returned, { st with sends := rest }.emit (Event.send c msgMarshalled failed))

/-- The size of the buffer allocated at line 118. -/
def readBufferSize : Nat := 1024

/-- The main loop of `RegisterAndListen` (lines 122-139); it returns when the loop
is left by `break`. -/
def listenLoop (env : Env) (registrationMessage : MediationClientMessage) :
    Nat → State → Outcome × State
  | 0, st => (Outcome.outOfFuel, st)
  | fuel + 1, st =>
    match st.wsc.ws with
    | none => (Outcome.nilDeref, st)
    | some c =>
      match connRead readBufferSize st.inbound with
      | none => (Outcome.blocked, st)
      | some (ReadResult.err, rest) =>
        (Outcome.returned, { st with inbound := rest }.emit (Event.read c ReadResult.err))
      | some (ReadResult.data b, rest) =>
        let st1 := { st with inbound := rest }.emit (Event.read c (ReadResult.data b))
        match env.Unmarshal b with
        | none => (Outcome.fatal, st1.emit (Event.fatal FatalCause.unmarshal))
        | some serverMsg =>
          listenLoop env registrationMessage fuel
            (st1.emit (Event.dispatch serverMsg registrationMessage))

/-- The URL dialled by `RegisterAndListen` (line 89). -/
def vmtServerUrl (wsc : WebSocketCommunicator) : String :=
  "ws://" ++ wsc.VmtServerAddress ++ "/vmturbo/remoteMediation"

/-- The interval of the sleep at line 80, in seconds. -/
def retryInterval : Nat := 10

mutual

/-- The method `RegisterAndListen` (lines 87-141). -/
def RegisterAndListen (env : Env) (registrationMessage : MediationClientMessage) :
    Nat → State → Outcome × State
  | 0, st => (Outcome.outOfFuel, st)
  | fuel + 1, st =>
    if env.newConfigFails (vmtServerUrl st.wsc) st.wsc.LocalAddress then
      (Outcome.fatal, st.emit (Event.fatal FatalCause.newConfig))
    else
      match st.dials with
      | [] => (Outcome.blocked, st)
      | d :: ds =>
        let st1 := { st with dials := ds }.emit (Event.dial d)
        thenDo
          (match d with
            | DialResult.err => CloseAndRegisterAgain env registrationMessage fuel st1
            | DialResult.ok _ => (Outcome.returned, st1))
          fun st2 =>
        thenDo (SendClientMessage env registrationMessage (st2.setWs d.webs)) fun st3 =>
        thenDo (listenLoop env registrationMessage fuel st3) fun st4 =>
        CloseAndRegisterAgain env registrationMessage fuel st4

/-- The method `CloseAndRegisterAgain` (lines 73-84): the close of a non-nil
socket, followed by the retry loop. -/
def CloseAndRegisterAgain (env : Env) (registrationMessage : MediationClientMessage) :
    Nat → State → Outcome × State
  | 0, st => (Outcome.outOfFuel, st)
  | fuel + 1, st =>
    match st.wsc.ws with
    | some c => retryLoop env registrationMessage fuel ((st.emit (Event.close c)).setWs none)
    | none => retryLoop env registrationMessage fuel st

/-- The loop `for wsc.ws == nil` of `CloseAndRegisterAgain` (lines 79-82). -/
def retryLoop (env : Env) (registrationMessage : MediationClientMessage) :
    Nat → State → Outcome × State
  | 0, st => (Outcome.outOfFuel, st)
  | fuel + 1, st =>
    match st.wsc.ws with
    | some _ => (Outcome.returned, st)
    | none =>
      thenDo (RegisterAndListen env registrationMessage fuel (st.emit (Event.sleep retryInterval)))
        fun st1 => retryLoop env registrationMessage fuel st1

end

/-- A communicator that has not dialled yet, with the scripts of what the world
will answer. -/
def start (wsc : WebSocketCommunicator) (dials : List DialResult) (sends : List Bool)
    (inbound : List Inbound) : State :=
  { wsc := { wsc with ws := none }, trace := [], dials := dials, sends := sends,
    inbound := inbound }

/-! ## Reading a trace -/

/-- The handle that is open after an event, given the handle open before it: a
successful dial opens its connection, a close releases it. -/
def openAfter (o : Option Conn) : Event → Option Conn
  | Event.dial (DialResult.ok c) => some c
  | Event.close _ => none
  | _ => o

/-- The handle that is open after a sequence of events. -/
def track : List Event → Option Conn → Option Conn
  | [], o => o
  | e :: t, o => track t (openAfter o e)

/-- The last event of a sequence, `l` when the sequence is empty. -/
def lastFrom (l : Option Event) : List Event → Option Event
  | [] => l
  | e :: t => lastFrom (some e) t

/-- The connections that were opened by a successful dial and not closed since,
oldest first. -/
def openHandles : List Event → List Conn → List Conn
  | [], acc => acc
  | Event.dial (DialResult.ok c) :: t, acc => openHandles t (acc ++ [c])
  | Event.close c :: t, acc => openHandles t (acc.erase c)
  | _ :: t, acc => openHandles t acc

/-- The last events after which the listen loop reads from connection `c`. -/
def ListenReady (reg : MediationClientMessage) (c : Conn) (last : Option Event) : Prop :=
  (∃ b f, last = some (Event.send c b f)) ∨ last = some Event.nilMarshalled ∨
    ∃ sm, last = some (Event.dispatch sm reg)

/-- The events that may come next when handle `o` is open and `last` was the
previous event, for the registration message `reg`. -/
def allowed (env : Env) (reg : MediationClientMessage) (o : Option Conn)
    (last : Option Event) : Event → Prop
  | Event.dial _ => o = none ∧ (last = none ∨ last = some (Event.sleep retryInterval))
  | Event.nilSocket => False
  | Event.nilMarshalled =>
    ∃ c, o = some c ∧ last = some (Event.dial (DialResult.ok c)) ∧
      env.Marshal reg = MarshalResult.nilBytes
  | Event.send c b _ =>
    o = some c ∧ last = some (Event.dial (DialResult.ok c)) ∧
      env.Marshal reg = MarshalResult.bytes b
  | Event.read c _ => o = some c ∧ ListenReady reg c last
  | Event.dispatch sm cm =>
    cm = reg ∧ ∃ c b, last = some (Event.read c (ReadResult.data b)) ∧ env.Unmarshal b = some sm
  | Event.close c => o = some c ∧ last = some (Event.read c ReadResult.err)
  | Event.sleep s =>
    s = retryInterval ∧ o = none ∧
      (last = some (Event.dial DialResult.err) ∨ ∃ c, last = some (Event.close c))
  | Event.fatal FatalCause.newConfig =>
    o = none ∧ (last = none ∨ last = some (Event.sleep retryInterval))
  | Event.fatal FatalCause.marshal =>
    (∃ c, last = some (Event.dial (DialResult.ok c))) ∧ env.Marshal reg = MarshalResult.err
  | Event.fatal FatalCause.unmarshal =>
    ∃ c b, last = some (Event.read c (ReadResult.data b)) ∧ env.Unmarshal b = none

/-- Every event of the sequence is allowed where it stands. -/
def Valid (env : Env) (reg : MediationClientMessage) :
    Option Conn → Option Event → List Event → Prop
  | _, _, [] => True
  | o, last, e :: t => allowed env reg o last e ∧ Valid env reg (openAfter o e) (some e) t

/-- What the last event tells about the way a run stopped; `sends` is what is
left of the script of the writes. -/
def Final (out : Outcome) (last : Option Event) (sends : List Bool) : Prop :=
  (∀ c b, last ≠ some (Event.read c (ReadResult.data b))) ∧
  (∀ cause, last = some (Event.fatal cause) → out = Outcome.fatal) ∧
  (∀ c, last = some (Event.dial (DialResult.ok c)) → out = Outcome.blocked ∧ sends = []) ∧
  (out = Outcome.fatal → ∃ cause, last = some (Event.fatal cause)) ∧
  (∀ c, last = some (Event.read c ReadResult.err) → out = Outcome.outOfFuel) ∧
  (∀ c, last = some (Event.close c) → out = Outcome.outOfFuel) ∧
  (last = some (Event.dial DialResult.err) → out = Outcome.outOfFuel)

/-- What holds of the state of a run at any point where it can stop. -/
structure Inv (env : Env) (reg : MediationClientMessage) (st : State) : Prop where
  valid : Valid env reg none none st.trace
  handle : track st.trace none = st.wsc.ws

/-- What holds of the result of the supervisor's procedures. -/
structure Post (env : Env) (reg : MediationClientMessage) (r : Outcome × State) : Prop where
  inv : Inv env reg r.2
  final : Final r.1 (lastFrom none r.2.trace) r.2.sends
  notReturned : r.1 ≠ Outcome.returned
  notNilDeref : r.1 ≠ Outcome.nilDeref

/-- The states in which `RegisterAndListen` is entered. -/
def DialReady (st : State) : Prop :=
  st.wsc.ws = none ∧
    (lastFrom none st.trace = none ∨ lastFrom none st.trace = some (Event.sleep retryInterval))

/-- The states in which `CloseAndRegisterAgain` is entered. -/
def CloseReady (st : State) : Prop :=
  (st.wsc.ws = none ∧ lastFrom none st.trace = some (Event.dial DialResult.err)) ∨
    ∃ c, st.wsc.ws = some c ∧ lastFrom none st.trace = some (Event.read c ReadResult.err)

/-- The states in which the retry loop is entered. -/
def RetryReady (st : State) : Prop :=
  st.wsc.ws = none ∧
    (lastFrom none st.trace = some (Event.dial DialResult.err) ∨
      ∃ c, lastFrom none st.trace = some (Event.close c))

/-- The trace of `r` continues the trace of `st`. -/
def Extends (st : State) (r : Outcome × State) : Prop :=
  ∃ suf, r.2.trace = st.trace ++ suf

/-- The trace of `k` failed dial attempts, each followed by the sleep. -/
def failedAttempts : Nat → List Event
  | 0 => []
  | k + 1 => Event.dial DialResult.err :: Event.sleep retryInterval :: failedAttempts k

/-! ## Sample data -/

/-- A communicator with a handler set. -/
def sampleWsc : WebSocketCommunicator :=
  { VmtServerAddress := "10.10.173.154:8080", LocalAddress := "http://172.16.201.167/",
    ServerUsername := "vmtRemoteMediation", ServerPassword := "vmtRemoteMediation",
    ServerMsgHandler := some { id := 1 }, ws := none }

/-- The same communicator without a handler set. -/
def sampleBareWsc : WebSocketCommunicator := { sampleWsc with ServerMsgHandler := none }

/-- A registration message: it carries container info. -/
def sampleReg : MediationClientMessage := { ContainerInfo := some 7, Other := 0 }

/-- A client message that is not a registration. -/
def sampleReply : MediationClientMessage := { ContainerInfo := none, Other := 3 }

/-- A server message with both an acknowledgement and a validation request. -/
def sampleAckAndValidation : MediationServerMessage :=
  { Ack := some 1, ValidationRequest := some 2, DiscoveryRequest := none,
    ActionRequest := none }

/-- A codec: every client message encodes, and all bytes decode (to a discovery
request) except the single byte 0. -/
def sampleEnv : Env :=
  { newConfigFails := fun _ _ => false,
    Marshal := fun m => MarshalResult.bytes [m.Other, 1],
    Unmarshal := fun b =>
      if b = [0] then none
      else some { Ack := none, ValidationRequest := none, DiscoveryRequest := some b.length,
                  ActionRequest := none } }

/-- The message `sampleEnv` decodes from one byte. -/
def sampleRequest : MediationServerMessage :=
  { Ack := none, ValidationRequest := none, DiscoveryRequest := some 1, ActionRequest := none }

/-- Dial outcomes: a failure, then two connections. -/
def sampleDials : List DialResult :=
  [DialResult.err, DialResult.ok { id := 1 }, DialResult.ok { id := 2 }]

/-- Outcomes of the writes: the first one fails. -/
def sampleSends : List Bool := [true, false]

/-- What arrives: a frame, a failure of the connection, a frame that does not
decode. -/
def sampleInbound : List Inbound := [Inbound.frame [5], Inbound.fail, Inbound.frame [0]]

/-- A world in which the first dial fails, the first connection fails to write
the registration, delivers one frame and breaks, and the second connection
delivers a frame that does not decode. -/
def sampleStart : State :=
  start sampleWsc sampleDials sampleSends sampleInbound

/-- The trace of the supervisor in the world `sampleStart`. -/
def sampleTrace : List Event :=
  [Event.dial DialResult.err, Event.sleep 10, Event.dial (DialResult.ok { id := 1 }),
   Event.send { id := 1 } [0, 1] true, Event.read { id := 1 } (ReadResult.data [5]),
   Event.dispatch sampleRequest sampleReg, Event.read { id := 1 } ReadResult.err,
   Event.close { id := 1 }, Event.sleep 10, Event.dial (DialResult.ok { id := 2 }),
   Event.send { id := 2 } [0, 1] false, Event.read { id := 2 } (ReadResult.data [0]),
   Event.fatal FatalCause.unmarshal]

/-- A frame of 1025 bytes. -/
def longFrame : Bytes := List.replicate 1025 7

/-! ## Basic facts -/

@[simp]
theorem emit_trace (st : State) (e : Event) : (st.emit e).trace = st.trace ++ [e] := rfl

@[simp]
theorem emit_wsc (st : State) (e : Event) : (st.emit e).wsc = st.wsc := rfl

@[simp]
theorem emit_dials (st : State) (e : Event) : (st.emit e).dials = st.dials := rfl

@[simp]
theorem emit_sends (st : State) (e : Event) : (st.emit e).sends = st.sends := rfl

@[simp]
theorem emit_inbound (st : State) (e : Event) : (st.emit e).inbound = st.inbound := rfl

@[simp]
theorem setWs_trace (st : State) (c : Option Conn) : (st.setWs c).trace = st.trace := rfl

@[simp]
theorem setWs_ws (st : State) (c : Option Conn) : (st.setWs c).wsc.ws = c := rfl

@[simp]
theorem setWs_dials (st : State) (c : Option Conn) : (st.setWs c).dials = st.dials := rfl

@[simp]
theorem setWs_sends (st : State) (c : Option Conn) : (st.setWs c).sends = st.sends := rfl

@[simp]
theorem setWs_inbound (st : State) (c : Option Conn) :
    (st.setWs c).inbound = st.inbound := rfl

@[simp]
theorem thenDo_returned (st : State) (k : State → Outcome × State) :
    thenDo (Outcome.returned, st) k = k st := rfl

theorem thenDo_stop (r : Outcome × State) (k : State → Outcome × State)
    (h : r.1 ≠ Outcome.returned) : thenDo r k = r := by
  rcases r with ⟨o, st⟩
  cases o <;> first | rfl | exact absurd rfl h

theorem track_append (a b : List Event) (o : Option Conn) :
    track (a ++ b) o = track b (track a o) := by
  induction a generalizing o with
  | nil => rfl
  | cons e t ih => simp [track, ih]

@[simp]
theorem track_nil (o : Option Conn) : track [] o = o := rfl

@[simp]
theorem track_cons (e : Event) (t : List Event) (o : Option Conn) :
    track (e :: t) o = track t (openAfter o e) := rfl

@[simp]
theorem track_append_cons (t t2 : List Event) (e : Event) (o : Option Conn) :
    track (t ++ e :: t2) o = track t2 (openAfter (track t o) e) := by
  simp [track_append]

theorem lastFrom_append (a b : List Event) (l : Option Event) :
    lastFrom l (a ++ b) = lastFrom (lastFrom l a) b := by
  induction a generalizing l with
  | nil => rfl
  | cons e t ih => simp [lastFrom, ih]

@[simp]
theorem lastFrom_nil (l : Option Event) : lastFrom l [] = l := rfl

@[simp]
theorem lastFrom_cons (l : Option Event) (e : Event) (t : List Event) :
    lastFrom l (e :: t) = lastFrom (some e) t := rfl

@[simp]
theorem lastFrom_append_cons (t t2 : List Event) (e : Event) (l : Option Event) :
    lastFrom l (t ++ e :: t2) = lastFrom (some e) t2 := by
  simp [lastFrom_append]

theorem valid_append (env : Env) (reg : MediationClientMessage) (a b : List Event)
    (o : Option Conn) (l : Option Event) :
    Valid env reg o l (a ++ b) ↔
      Valid env reg o l a ∧ Valid env reg (track a o) (lastFrom l a) b := by
  induction a generalizing o l with
  | nil => simp [Valid, track, lastFrom]
  | cons e t ih => simp [Valid, track, lastFrom, ih, and_assoc]

theorem valid_snoc (env : Env) (reg : MediationClientMessage) (t : List Event) (e : Event) :
    Valid env reg none none (t ++ [e]) ↔
      Valid env reg none none t ∧ allowed env reg (track t none) (lastFrom none t) e := by
  simp [valid_append, Valid]

theorem final_of_listenReady (reg : MediationClientMessage) (c : Conn) (last : Option Event)
    (out : Outcome) (sends : List Bool) (h : ListenReady reg c last)
    (hf : out ≠ Outcome.fatal) : Final out last sends := by
  rcases h with ⟨b, f, rfl⟩ | rfl | ⟨sm, rfl⟩ <;>
    exact ⟨by simp, by simp, by simp, fun h => absurd h hf, by simp, by simp, by simp⟩

theorem listenLoop_post (env : Env) (reg : MediationClientMessage) (n : Nat) :
    ∀ (st : State) (c : Conn), Inv env reg st → st.wsc.ws = some c →
      ListenReady reg c (lastFrom none st.trace) →
      Inv env reg (listenLoop env reg n st).2 ∧
      (listenLoop env reg n st).2.wsc.ws = some c ∧
      (listenLoop env reg n st).1 ≠ Outcome.nilDeref ∧
      ((listenLoop env reg n st).1 = Outcome.returned →
        lastFrom none (listenLoop env reg n st).2.trace = some (Event.read c ReadResult.err)) ∧
      ((listenLoop env reg n st).1 ≠ Outcome.returned →
        Final (listenLoop env reg n st).1 (lastFrom none (listenLoop env reg n st).2.trace)
          (listenLoop env reg n st).2.sends) := by
  induction n with
  | zero =>
    intro st c hinv hws hready
    simp only [listenLoop]
    exact ⟨hinv, hws, by simp, by simp, fun _ => final_of_listenReady reg c _ _ _ hready (by simp)⟩
  | succ n ih =>
    intro st c hinv hws hready
    rw [listenLoop]
    simp only [hws]
    cases hread : connRead readBufferSize st.inbound with
    | none =>
      exact ⟨hinv, hws, by simp, by simp,
        fun _ => final_of_listenReady reg c _ _ _ hready (by simp)⟩
    | some p =>
      rcases p with ⟨r, rest⟩
      cases r with
      | err =>
        refine ⟨⟨?_, ?_⟩, hws, by simp, by simp, by simp⟩
        · simp only [emit_trace, valid_snoc]
          exact ⟨hinv.valid, by rw [hinv.handle, hws], hready⟩
        · simp [openAfter, hinv.handle, hws]
      | data b =>
        dsimp only
        have hv1 : Valid env reg none none (st.trace ++ [Event.read c (ReadResult.data b)]) := by
          rw [valid_snoc]
          exact ⟨hinv.valid, by rw [hinv.handle, hws], hready⟩
        cases hu : env.Unmarshal b with
        | none =>
          dsimp only
          refine ⟨⟨?_, ?_⟩, hws, by simp, by simp, fun _ => ⟨by simp, by simp, by simp, by simp, by simp, by simp, by simp⟩⟩
          · simp only [emit_trace]
            rw [valid_snoc]
            exact ⟨hv1, c, b, by simp, hu⟩
          · simp [openAfter, hinv.handle, hws]
        | some sm =>
          dsimp only
          apply ih _ c
          · refine ⟨?_, ?_⟩
            · simp only [emit_trace]
              rw [valid_snoc]
              exact ⟨hv1, rfl, c, b, by simp, hu⟩
            · simp [openAfter, hinv.handle, hws]
          · simpa using hws
          · right; right
            exact ⟨sm, by simp⟩

theorem thenDo_elim (P : Outcome × State → Prop) (r : Outcome × State)
    (k : State → Outcome × State) (h1 : r.1 ≠ Outcome.returned → P r)
    (h2 : ∀ st, r = (Outcome.returned, st) → P (k st)) : P (thenDo r k) := by
  rcases r with ⟨o, st⟩
  by_cases ho : o = Outcome.returned
  · subst ho
    exact h2 st rfl
  · rw [thenDo_stop _ _ ho]
    exact h1 ho

theorem send_post (env : Env) (reg : MediationClientMessage) (st : State) (c : Conn)
    (hinv : Inv env reg st) (hws : st.wsc.ws = some c)
    (hlast : lastFrom none st.trace = some (Event.dial (DialResult.ok c))) :
    Inv env reg (SendClientMessage env reg st).2 ∧
    (SendClientMessage env reg st).2.wsc.ws = some c ∧
    (SendClientMessage env reg st).1 ≠ Outcome.nilDeref ∧
    ((SendClientMessage env reg st).1 = Outcome.returned →
      ListenReady reg c (lastFrom none (SendClientMessage env reg st).2.trace)) ∧
    ((SendClientMessage env reg st).1 ≠ Outcome.returned →
      Final (SendClientMessage env reg st).1
        (lastFrom none (SendClientMessage env reg st).2.trace)
        (SendClientMessage env reg st).2.sends) := by
  unfold SendClientMessage
  cases hm : env.Marshal reg with
  | err =>
    dsimp only
    refine ⟨⟨?_, ?_⟩, hws, by simp, by simp, fun _ => ⟨by simp, by simp, by simp, by simp, by simp, by simp, by simp⟩⟩
    · simp only [emit_trace]
      rw [valid_snoc]
      exact ⟨hinv.valid, ⟨c, hlast⟩, hm⟩
    · simp [openAfter, hinv.handle, hws]
  | nilBytes =>
    simp only [hws]
    refine ⟨⟨?_, ?_⟩, hws, by simp, fun _ => Or.inr (Or.inl (by simp)), by simp⟩
    · simp only [emit_trace]
      rw [valid_snoc]
      exact ⟨hinv.valid, c, by rw [hinv.handle, hws], hlast, hm⟩
    · simp [openAfter, hinv.handle, hws]
  | bytes b =>
    simp only [hws]
    cases hs : st.sends with
    | nil =>
      dsimp only
      refine ⟨hinv, hws, by simp, by simp, fun _ => ?_⟩
      rw [hlast]
      exact ⟨by simp, by simp, by simp [hs], by simp, by simp, by simp, by simp⟩
    | cons f rest =>
      dsimp only
      refine ⟨⟨?_, ?_⟩, hws, by simp, fun _ => Or.inl ⟨b, f, by simp⟩, by simp⟩
      · simp only [emit_trace]
        rw [valid_snoc]
        exact ⟨hinv.valid, by rw [hinv.handle, hws], hlast, hm⟩
      · simp [openAfter, hinv.handle, hws]

theorem supervisor_post (env : Env) (reg : MediationClientMessage) (n : Nat) :
    (∀ st, Inv env reg st → DialReady st → Post env reg (RegisterAndListen env reg n st)) ∧
    (∀ st, Inv env reg st → CloseReady st →
      Post env reg (CloseAndRegisterAgain env reg n st)) ∧
    (∀ st, Inv env reg st → RetryReady st → Post env reg (retryLoop env reg n st)) := by
  induction n with
  | zero =>
    refine ⟨?_, ?_, ?_⟩
    · rintro st hinv ⟨-, h | h⟩ <;> rw [RegisterAndListen] <;>
        exact ⟨hinv, by rw [h]; exact ⟨by simp, by simp, by simp, by simp, by simp, by simp, by simp⟩, by simp, by simp⟩
    · rintro st hinv (⟨-, h⟩ | ⟨c, -, h⟩) <;> rw [CloseAndRegisterAgain] <;>
        exact ⟨hinv, by rw [h]; exact ⟨by simp, by simp, by simp, by simp, by simp, by simp, by simp⟩, by simp, by simp⟩
    · rintro st hinv ⟨-, h | ⟨c, h⟩⟩ <;> rw [retryLoop] <;>
        exact ⟨hinv, by rw [h]; exact ⟨by simp, by simp, by simp, by simp, by simp, by simp, by simp⟩, by simp, by simp⟩
  | succ n ih =>
    obtain ⟨ihR, ihC, ihL⟩ := ih
    refine ⟨?_, ?_, ?_⟩
    · rintro st hinv ⟨hws, hlast⟩
      have hallowed : ∀ d, allowed env reg (track st.trace none) (lastFrom none st.trace)
          (Event.dial d) := fun d => ⟨by rw [hinv.handle, hws], hlast⟩
      rw [RegisterAndListen]
      split
      · refine ⟨⟨?_, ?_⟩, ⟨by simp, by simp, by simp, by simp, by simp, by simp, by simp⟩, by simp, by simp⟩
        · simp only [emit_trace]
          rw [valid_snoc]
          exact ⟨hinv.valid, by rw [hinv.handle, hws], hlast⟩
        · simp [openAfter, hinv.handle, hws]
      · cases hd : st.dials with
        | nil =>
          dsimp only
          refine ⟨hinv, ?_, by simp, by simp⟩
          rcases hlast with h | h <;> rw [h] <;> exact ⟨by simp, by simp, by simp, by simp, by simp, by simp, by simp⟩
        | cons d ds =>
          dsimp only
          have hv1 : Valid env reg none none (st.trace ++ [Event.dial d]) := by
            rw [valid_snoc]
            exact ⟨hinv.valid, hallowed d⟩
          cases d with
          | err =>
            dsimp only
            have hpost := ihC ({ st with dials := ds }.emit (Event.dial DialResult.err))
              ⟨hv1, by simp [openAfter, hinv.handle, hws]⟩ (Or.inl ⟨hws, by simp⟩)
            rw [thenDo_stop _ _ hpost.notReturned]
            exact hpost
          | ok c =>
            dsimp only [thenDo_returned, DialResult.webs]
            have hs := send_post env reg
              (({ st with dials := ds }.emit (Event.dial (DialResult.ok c))).setWs (some c)) c
              ⟨hv1, by simp [openAfter]⟩ (by simp) (by simp)
            obtain ⟨hsinv, hsws, hsnil, hsret, hsfin⟩ := hs
            apply thenDo_elim
            · intro hne
              exact ⟨hsinv, hsfin hne, hne, hsnil⟩
            · intro st3 h3
              rw [h3] at hsinv hsws hsret
              have hl := listenLoop_post env reg n st3 c hsinv hsws (hsret rfl)
              obtain ⟨hlinv, hlws, hlnil, hlret, hlfin⟩ := hl
              apply thenDo_elim
              · intro hne
                exact ⟨hlinv, hlfin hne, hne, hlnil⟩
              · intro st4 h4
                rw [h4] at hlinv hlws hlret
                exact ihC st4 hlinv (Or.inr ⟨c, hlws, hlret rfl⟩)
    · rintro st hinv hready
      rw [CloseAndRegisterAgain]
      rcases hready with ⟨hws, hlast⟩ | ⟨c, hws, hlast⟩
      · simp only [hws]
        exact ihL st hinv ⟨hws, Or.inl hlast⟩
      · simp only [hws]
        apply ihL
        · refine ⟨?_, ?_⟩
          · simp only [setWs_trace, emit_trace]
            rw [valid_snoc]
            exact ⟨hinv.valid, by rw [hinv.handle, hws], hlast⟩
          · simp [openAfter]
        · exact ⟨by simp, Or.inr ⟨c, by simp⟩⟩
    · rintro st hinv ⟨hws, hlast⟩
      rw [retryLoop]
      simp only [hws]
      have hpost := ihR (st.emit (Event.sleep retryInterval)) ⟨?_, ?_⟩ ⟨hws, Or.inr (by simp)⟩
      · rw [thenDo_stop _ _ hpost.notReturned]
        exact hpost
      · simp only [emit_trace]
        rw [valid_snoc]
        exact ⟨hinv.valid, rfl, by rw [hinv.handle, hws], hlast⟩
      · simp [openAfter, hinv.handle, hws]

theorem run_post (env : Env) (reg : MediationClientMessage) (wsc : WebSocketCommunicator)
    (dials : List DialResult) (sends : List Bool) (inbound : List Inbound) (n : Nat) :
    Post env reg (RegisterAndListen env reg n (start wsc dials sends inbound)) :=
  (supervisor_post env reg n).1 _ ⟨trivial, rfl⟩ ⟨rfl, Or.inl rfl⟩

theorem never_returns (env : Env) (reg : MediationClientMessage) (n : Nat) :
    (∀ st, (RegisterAndListen env reg n st).1 ≠ Outcome.returned) ∧
    (∀ st, (CloseAndRegisterAgain env reg n st).1 ≠ Outcome.returned) ∧
    (∀ st, st.wsc.ws = none → (retryLoop env reg n st).1 ≠ Outcome.returned) := by
  induction n with
  | zero =>
    refine ⟨fun st => ?_, fun st => ?_, fun st _ => ?_⟩
    · rw [RegisterAndListen]; simp
    · rw [CloseAndRegisterAgain]; simp
    · rw [retryLoop]; simp
  | succ n ih =>
    obtain ⟨ihR, ihC, ihL⟩ := ih
    refine ⟨fun st => ?_, fun st => ?_, fun st hws => ?_⟩
    · rw [RegisterAndListen]
      split
      · simp
      · cases hd : st.dials with
        | nil => simp
        | cons d ds =>
          dsimp only
          apply thenDo_elim (fun r => r.1 ≠ Outcome.returned)
          · exact fun h => h
          · intro st2 _
            apply thenDo_elim (fun r => r.1 ≠ Outcome.returned)
            · exact fun h => h
            · intro st3 _
              apply thenDo_elim (fun r => r.1 ≠ Outcome.returned)
              · exact fun h => h
              · intro st4 _
                exact ihC st4
    · rw [CloseAndRegisterAgain]
      cases hws : st.wsc.ws with
      | none => exact ihL st hws
      | some c => exact ihL _ (by simp)
    · rw [retryLoop]
      simp only [hws]
      rw [thenDo_stop _ _ (ihR _)]
      exact ihR _

theorem extends_refl (o : Outcome) (st : State) : Extends st (o, st) := ⟨[], by simp⟩

theorem extends_emit (o : Outcome) (st : State) (e : Event) : Extends st (o, st.emit e) :=
  ⟨[e], rfl⟩

theorem extends_trans (st st2 : State) (r : Outcome × State)
    (h1 : ∃ suf, st2.trace = st.trace ++ suf) (h2 : Extends st2 r) : Extends st r := by
  obtain ⟨a, ha⟩ := h1
  obtain ⟨b, hb⟩ := h2
  exact ⟨a ++ b, by rw [hb, ha, List.append_assoc]⟩

theorem send_extends (env : Env) (reg : MediationClientMessage) (st : State) :
    Extends st (SendClientMessage env reg st) := by
  unfold SendClientMessage
  cases env.Marshal reg with
  | err => exact extends_emit _ _ _
  | nilBytes =>
    cases st.wsc.ws with
    | none => exact extends_emit _ _ _
    | some c => exact extends_emit _ _ _
  | bytes b =>
    cases st.wsc.ws with
    | none => exact extends_emit _ _ _
    | some c =>
      cases hs : st.sends with
      | nil => exact extends_refl _ _
      | cons f rest => exact ⟨[Event.send c b f], rfl⟩

theorem listenLoop_extends (env : Env) (reg : MediationClientMessage) (n : Nat) :
    ∀ st, Extends st (listenLoop env reg n st) := by
  induction n with
  | zero => intro st; rw [listenLoop]; exact extends_refl _ _
  | succ n ih =>
    intro st
    rw [listenLoop]
    cases st.wsc.ws with
    | none => exact extends_refl _ _
    | some c =>
      dsimp only
      cases connRead readBufferSize st.inbound with
      | none => exact extends_refl _ _
      | some p =>
        rcases p with ⟨r, rest⟩
        cases r with
        | err => exact ⟨[Event.read c ReadResult.err], rfl⟩
        | data b =>
          dsimp only
          cases env.Unmarshal b with
          | none =>
            exact ⟨[Event.read c (ReadResult.data b), Event.fatal FatalCause.unmarshal], by simp⟩
          | some sm =>
            dsimp only
            exact extends_trans _ _ _ ⟨[Event.read c (ReadResult.data b),
              Event.dispatch sm reg], by simp⟩ (ih _)

theorem tail_extends (env : Env) (reg : MediationClientMessage) (n : Nat)
    (ihC : ∀ st, Extends st (CloseAndRegisterAgain env reg n st)) (st1 : State)
    (r1 : Outcome × State) (w : Option Conn) (h1 : Extends st1 r1) :
    Extends st1 (thenDo r1 fun st2 =>
      thenDo (SendClientMessage env reg (st2.setWs w)) fun st3 =>
      thenDo (listenLoop env reg n st3) fun st4 =>
      CloseAndRegisterAgain env reg n st4) := by
  apply thenDo_elim
  · exact fun _ => h1
  · intro st2 h2
    rw [h2] at h1
    have h3 : Extends st2 (SendClientMessage env reg (st2.setWs w)) :=
      send_extends env reg (st2.setWs w)
    apply thenDo_elim
    · exact fun _ => extends_trans _ _ _ h1 h3
    · intro st3 h4
      rw [h4] at h3
      have h5 := listenLoop_extends env reg n st3
      apply thenDo_elim
      · exact fun _ => extends_trans _ _ _ h1 (extends_trans _ _ _ h3 h5)
      · intro st4 h6
        rw [h6] at h5
        exact extends_trans _ _ _ h1 (extends_trans _ _ _ h3
          (extends_trans _ _ _ h5 (ihC st4)))

theorem supervisor_extends (env : Env) (reg : MediationClientMessage) (n : Nat) :
    (∀ st, Extends st (RegisterAndListen env reg n st) ∧
      ∀ d ds, n ≠ 0 → env.newConfigFails (vmtServerUrl st.wsc) st.wsc.LocalAddress = false →
        st.dials = d :: ds →
        ∃ suf, (RegisterAndListen env reg n st).2.trace = st.trace ++ Event.dial d :: suf) ∧
    (∀ st, Extends st (CloseAndRegisterAgain env reg n st)) ∧
    (∀ st, Extends st (retryLoop env reg n st)) := by
  induction n with
  | zero =>
    refine ⟨fun st => ⟨?_, fun _ _ h => absurd rfl h⟩, fun st => ?_, fun st => ?_⟩
    · rw [RegisterAndListen]; exact extends_refl _ _
    · rw [CloseAndRegisterAgain]; exact extends_refl _ _
    · rw [retryLoop]; exact extends_refl _ _
  | succ n ih =>
    obtain ⟨ihR, ihC, ihL⟩ := ih
    refine ⟨fun st => ?_, fun st => ?_, fun st => ?_⟩
    · rw [RegisterAndListen]
      split
      · rename_i hcfg
        exact ⟨extends_emit _ _ _, fun d ds _ h => by rw [hcfg] at h; cases h⟩
      · cases hd : st.dials with
        | nil => exact ⟨extends_refl _ _, fun d ds _ _ h => by cases h⟩
        | cons d ds =>
          dsimp only
          have key : Extends ({ st with dials := ds }.emit (Event.dial d))
              (RegisterAndListen env reg (n + 1) st) := by
            rw [RegisterAndListen]
            simp only [hd]
            rw [if_neg (by assumption)]
            cases d with
            | err => exact tail_extends env reg n ihC _ _ _ (ihC _)
            | ok c => exact tail_extends env reg n ihC _ _ _ (extends_refl _ _)
          rw [RegisterAndListen] at key
          simp only [hd] at key
          rw [if_neg (by assumption)] at key
          refine ⟨extends_trans _ _ _ ⟨[Event.dial d], rfl⟩ key, fun d2 ds2 _ _ h => ?_⟩
          cases h
          obtain ⟨suf, hsuf⟩ := key
          exact ⟨suf, by rw [hsuf]; simp⟩
    · rw [CloseAndRegisterAgain]
      cases st.wsc.ws with
      | none => exact ihL st
      | some c => exact extends_trans _ _ _ ⟨[Event.close c], rfl⟩ (ihL _)
    · rw [retryLoop]
      cases st.wsc.ws with
      | some c => exact extends_refl _ _
      | none =>
        dsimp only
        have h1 := (ihR (st.emit (Event.sleep retryInterval))).1
        apply thenDo_elim
        · exact fun _ => extends_trans _ _ _ ⟨[Event.sleep retryInterval], rfl⟩ h1
        · intro st1 h2
          rw [h2] at h1
          exact extends_trans _ _ _ ⟨[Event.sleep retryInterval], rfl⟩
            (extends_trans _ _ _ h1 (ihL st1))

theorem failed_dial_step (env : Env) (reg : MediationClientMessage) (n : Nat) (st : State)
    (ds : List DialResult) (hws : st.wsc.ws = none)
    (hcfg : env.newConfigFails (vmtServerUrl st.wsc) st.wsc.LocalAddress = false)
    (hd : st.dials = DialResult.err :: ds) :
    RegisterAndListen env reg (n + 3) st =
      RegisterAndListen env reg n
        (({ st with dials := ds }.emit (Event.dial DialResult.err)).emit
          (Event.sleep retryInterval)) := by
  rw [RegisterAndListen]
  simp only [hcfg, hd]
  rw [thenDo_stop _ _ ((never_returns env reg (n + 2)).2.1 _)]
  rw [CloseAndRegisterAgain]
  simp only [emit_wsc, hws]
  rw [retryLoop]
  simp only [emit_wsc, hws]
  rw [thenDo_stop _ _ ((never_returns env reg n).1 _)]
  simp

theorem valid_at (env : Env) (reg : MediationClientMessage) (pre suf : List Event) (e : Event)
    (h : Valid env reg none none (pre ++ e :: suf)) :
    Valid env reg none none pre ∧ allowed env reg (track pre none) (lastFrom none pre) e ∧
      Valid env reg (openAfter (track pre none) e) (some e) suf := by
  rw [valid_append] at h
  exact ⟨h.1, h.2.1, h.2.2⟩

theorem next_allowed (env : Env) (reg : MediationClientMessage) (pre suf : List Event)
    (e1 e2 : Event) (h : Valid env reg none none (pre ++ e1 :: e2 :: suf)) :
    allowed env reg (openAfter (track pre none) e1) (some e1) e2 :=
  (valid_at env reg pre (e2 :: suf) e1 h).2.2.1

theorem valid_left (env : Env) (reg : MediationClientMessage) (pre suf : List Event)
    (h : Valid env reg none none (pre ++ suf)) : Valid env reg none none pre := by
  rw [valid_append] at h
  exact h.1

theorem openHandles_track (env : Env) (reg : MediationClientMessage) (t : List Event) :
    ∀ (o : Option Conn) (l : Option Event), Valid env reg o l t →
      openHandles t o.toList = (track t o).toList := by
  induction t with
  | nil => intro o l _; rfl
  | cons e t ih =>
    intro o l h
    obtain ⟨ha, hv⟩ := h
    have := ih _ _ hv
    cases e with
    | dial r =>
      cases r with
      | ok c =>
        obtain ⟨ho, -⟩ := ha
        subst ho
        simpa [openHandles, openAfter] using this
      | err => simpa [openHandles, openAfter] using this
    | close c =>
      obtain ⟨ho, -⟩ := ha
      subst ho
      simpa [openHandles, openAfter] using this
    | nilSocket => simpa [openHandles, openAfter] using this
    | nilMarshalled => simpa [openHandles, openAfter] using this
    | send c b f => simpa [openHandles, openAfter] using this
    | read c r => simpa [openHandles, openAfter] using this
    | dispatch sm cm => simpa [openHandles, openAfter] using this
    | sleep k => simpa [openHandles, openAfter] using this
    | fatal cause => simpa [openHandles, openAfter] using this

theorem openHandles_eq (env : Env) (reg : MediationClientMessage) (t : List Event)
    (h : Valid env reg none none t) : openHandles t [] = (track t none).toList :=
  openHandles_track env reg t none none h

theorem lastFrom_eq_some (pre : List Event) (e : Event) :
    ∀ l, lastFrom l pre = some e → (pre = [] ∧ l = some e) ∨ ∃ pre2, pre = pre2 ++ [e] := by
  induction pre with
  | nil => intro l h; exact Or.inl ⟨rfl, h⟩
  | cons a t ih =>
    intro l h
    right
    rcases ih (some a) h with ⟨ht, ha⟩ | ⟨pre2, hp⟩
    · subst ht
      cases ha
      exact ⟨[], rfl⟩
    · exact ⟨a :: pre2, by rw [hp]; rfl⟩

theorem after_read_err (env : Env) (reg : MediationClientMessage) (o : Option Conn) (c : Conn)
    (e : Event) (h : allowed env reg o (some (Event.read c ReadResult.err)) e) :
    e = Event.close c := by
  cases e with
  | close c2 => obtain ⟨-, h2⟩ := h; cases h2; rfl
  | dial r => simp [allowed] at h
  | nilSocket => simp [allowed] at h
  | nilMarshalled => simp [allowed] at h
  | send c2 b f => simp [allowed] at h
  | read c2 r => simp [allowed, ListenReady] at h
  | dispatch sm cm => simp [allowed] at h
  | sleep k => simp [allowed] at h
  | fatal cause => cases cause <;> simp [allowed] at h

/-- C4: in every run of the supervisor the event that follows a failed read on a
connection is the close of that connection; no handle is open when a dial is
made; at most one handle is open after any part of the run; the field `wsc.ws`
holds exactly the open handle, so it is nil once the connection is closed; and a
run whose trace ends with the failed read has only run out of fuel, the code
does not stop there. -/
theorem close_before_redial (env : Env) (reg : MediationClientMessage)
    (wsc : WebSocketCommunicator) (dials : List DialResult) (sends : List Bool)
    (inbound : List Inbound) (fuel : Nat) :
    (∀ pre c e suf,
      (RegisterAndListen env reg fuel (start wsc dials sends inbound)).2.trace =
        pre ++ Event.read c ReadResult.err :: e :: suf → e = Event.close c) ∧
    (∀ pre r suf,
      (RegisterAndListen env reg fuel (start wsc dials sends inbound)).2.trace =
        pre ++ Event.dial r :: suf → openHandles pre [] = []) ∧
    (∀ pre suf,
      (RegisterAndListen env reg fuel (start wsc dials sends inbound)).2.trace = pre ++ suf →
        (openHandles pre []).length ≤ 1) ∧
    (RegisterAndListen env reg fuel (start wsc dials sends inbound)).2.wsc.ws =
      (openHandles (RegisterAndListen env reg fuel (start wsc dials sends inbound)).2.trace
        []).head? ∧
    (∀ pre c,
      (RegisterAndListen env reg fuel (start wsc dials sends inbound)).2.trace =
        pre ++ [Event.read c ReadResult.err] →
      (RegisterAndListen env reg fuel (start wsc dials sends inbound)).1 = Outcome.outOfFuel) := by
  have hp := run_post env reg wsc dials sends inbound fuel
  have hv := hp.inv.valid
  refine ⟨?_, ?_, ?_, ?_, ?_⟩
  · intro pre c e suf h
    rw [h] at hv
    exact after_read_err env reg _ c e (next_allowed env reg pre suf _ e hv)
  · intro pre r suf h
    rw [h] at hv
    obtain ⟨hpre, ha, -⟩ := valid_at env reg pre suf _ hv
    rw [openHandles_eq env reg pre hpre, ha.1]
    rfl
  · intro pre suf h
    rw [h] at hv
    rw [openHandles_eq env reg pre (valid_left env reg pre suf hv)]
    cases track pre none <;> simp
  · rw [openHandles_eq env reg _ hv, hp.inv.handle]
    cases (RegisterAndListen env reg fuel (start wsc dials sends inbound)).2.wsc.ws <;> rfl
  · intro pre c h
    exact hp.final.2.2.2.2.1 c (by rw [h]; simp)

theorem send_writes (env : Env) (reg : MediationClientMessage) (st : State) (c : Conn)
    (b : Bytes) (failed : Bool) (rest : List Bool)
    (hM : env.Marshal reg = MarshalResult.bytes b) (hws : st.wsc.ws = some c)
    (hs : st.sends = failed :: rest) :
    SendClientMessage env reg st =
      (Outcome.returned, { st with sends := rest }.emit (Event.send c b failed)) := by
  unfold SendClientMessage
  simp only [hM, hws, hs]

theorem dial_then_send (env : Env) (reg : MediationClientMessage) (b : Bytes)
    (hM : env.Marshal reg = MarshalResult.bytes b) (st : State) (m : Nat) (c : Conn)
    (ds : List DialResult) (failed : Bool) (rest : List Bool)
    (hcfg : env.newConfigFails (vmtServerUrl st.wsc) st.wsc.LocalAddress = false)
    (hd : st.dials = DialResult.ok c :: ds) (hs : st.sends = failed :: rest) :
    ∃ suf, (RegisterAndListen env reg (m + 1) st).2.trace =
      st.trace ++ Event.dial (DialResult.ok c) :: Event.send c b failed :: suf := by
  have key : Extends
      ({ ({ st with dials := ds }.emit (Event.dial (DialResult.ok c))).setWs (some c) with
          sends := rest }.emit (Event.send c b failed))
      (RegisterAndListen env reg (m + 1) st) := by
    rw [RegisterAndListen]
    simp only [hcfg, hd]
    rw [if_neg (by simp)]
    dsimp only [thenDo_returned, DialResult.webs]
    rw [send_writes env reg _ c b failed rest hM (by simp) (by simpa using hs)]
    rw [thenDo_returned]
    have h5 := listenLoop_extends env reg m
      ({ ({ st with dials := ds }.emit (Event.dial (DialResult.ok c))).setWs (some c) with
          sends := rest }.emit (Event.send c b failed))
    apply thenDo_elim
    · exact fun _ => h5
    · intro st4 h6
      rw [h6] at h5
      exact extends_trans _ _ _ h5 ((supervisor_extends env reg m).2.1 st4)
  obtain ⟨suf, hsuf⟩ := key
  exact ⟨suf, by rw [hsuf]; simp⟩

theorem after_dial_ok (env : Env) (reg : MediationClientMessage) (o : Option Conn) (c : Conn)
    (b : Bytes) (hM : env.Marshal reg = MarshalResult.bytes b) (e : Event)
    (h : allowed env reg (openAfter o (Event.dial (DialResult.ok c)))
      (some (Event.dial (DialResult.ok c))) e) :
    ∃ failed, e = Event.send c b failed := by
  cases e with
  | send c2 b2 f =>
    obtain ⟨h1, -, h3⟩ := h
    rw [hM] at h3
    cases h3
    simp only [openAfter] at h1
    cases h1
    exact ⟨f, rfl⟩
  | close c2 => simp [allowed] at h
  | dial r => simp [allowed, openAfter] at h
  | nilSocket => simp [allowed] at h
  | nilMarshalled => simp [allowed, hM] at h
  | read c2 r => simp [allowed, ListenReady] at h
  | dispatch sm cm => simp [allowed] at h
  | sleep k => simp [allowed] at h
  | fatal cause => cases cause <;> simp [allowed, hM, openAfter] at h

/-- C5: when the codec encodes the registration message `reg` as the bytes `b`,
then in every run, whatever the dials and reads do and however many reconnects
happen, each successful dial is followed at once by the write of exactly `b` on
the new connection; the only run in which a successful dial is the last event is
one that waits in that write because the script of the writes is used up. Every
write carries `b` and comes right after a successful dial of its connection;
every read comes right after that write or after the dispatch of the previous
message, never right after the dial; and the message handed to each dispatch is
`reg` itself. The write does happen: from any state, so at every reconnect, a
call of `RegisterAndListen` whose dial succeeds and whose write has an outcome
continues the trace with the dial and then the write of `b` on the new
connection. -/
theorem registration_resent (env : Env) (reg : MediationClientMessage)
    (wsc : WebSocketCommunicator) (dials : List DialResult) (sends : List Bool)
    (inbound : List Inbound) (fuel : Nat) (b : Bytes)
    (hM : env.Marshal reg = MarshalResult.bytes b) :
    (∀ pre c suf,
      (RegisterAndListen env reg fuel (start wsc dials sends inbound)).2.trace =
        pre ++ Event.dial (DialResult.ok c) :: suf →
      (suf = [] ∧
        (RegisterAndListen env reg fuel (start wsc dials sends inbound)).1 = Outcome.blocked ∧
        (RegisterAndListen env reg fuel (start wsc dials sends inbound)).2.sends = []) ∨
      ∃ failed suf2, suf = Event.send c b failed :: suf2) ∧
    (∀ st m c ds failed rest,
      env.newConfigFails (vmtServerUrl st.wsc) st.wsc.LocalAddress = false →
      st.dials = DialResult.ok c :: ds → st.sends = failed :: rest →
      ∃ suf, (RegisterAndListen env reg (m + 1) st).2.trace =
        st.trace ++ Event.dial (DialResult.ok c) :: Event.send c b failed :: suf) ∧
    (∀ pre c b2 failed suf,
      (RegisterAndListen env reg fuel (start wsc dials sends inbound)).2.trace =
        pre ++ Event.send c b2 failed :: suf →
      b2 = b ∧ ∃ pre2, pre = pre2 ++ [Event.dial (DialResult.ok c)]) ∧
    (∀ pre c res suf,
      (RegisterAndListen env reg fuel (start wsc dials sends inbound)).2.trace =
        pre ++ Event.read c res :: suf →
      ∃ pre2 e, pre = pre2 ++ [e] ∧
        ((∃ failed, e = Event.send c b failed) ∨ ∃ sm, e = Event.dispatch sm reg)) ∧
    (∀ pre sm cm suf,
      (RegisterAndListen env reg fuel (start wsc dials sends inbound)).2.trace =
        pre ++ Event.dispatch sm cm :: suf → cm = reg) := by
  have hp := run_post env reg wsc dials sends inbound fuel
  have hv := hp.inv.valid
  have hsend : ∀ pre c b2 failed suf,
      (RegisterAndListen env reg fuel (start wsc dials sends inbound)).2.trace =
        pre ++ Event.send c b2 failed :: suf →
      b2 = b ∧ ∃ pre2, pre = pre2 ++ [Event.dial (DialResult.ok c)] := by
    intro pre c b2 failed suf h
    rw [h] at hv
    obtain ⟨-, ⟨-, hl, hm⟩, -⟩ := valid_at env reg pre suf _ hv
    rw [hM] at hm
    cases hm
    rcases lastFrom_eq_some pre _ none hl with ⟨-, h0⟩ | h1
    · cases h0
    · exact ⟨rfl, h1⟩
  refine ⟨?_, fun st m c ds failed rest hcfg hd hs =>
    dial_then_send env reg b hM st m c ds failed rest hcfg hd hs, hsend, ?_, ?_⟩
  · intro pre c suf h
    cases suf with
    | nil =>
      left
      refine ⟨rfl, hp.final.2.2.1 c ?_⟩
      rw [h]
      simp
    | cons e suf2 =>
      right
      rw [h] at hv
      obtain ⟨failed, he⟩ := after_dial_ok env reg _ c b hM e (next_allowed env reg pre suf2 _ e hv)
      exact ⟨failed, suf2, by rw [he]⟩
  · intro pre c res suf h
    have hv2 := hv
    rw [h] at hv2
    obtain ⟨hpre, ⟨-, hready⟩, -⟩ := valid_at env reg pre suf _ hv2
    rcases hready with ⟨b2, f, hl⟩ | hl | ⟨sm, hl⟩
    · rcases lastFrom_eq_some pre _ none hl with ⟨-, h0⟩ | ⟨pre2, h1⟩
      · cases h0
      · have hb := (hsend pre2 c b2 f (Event.read c res :: suf) (by rw [h, h1]; simp)).1
        exact ⟨pre2, _, h1, Or.inl ⟨f, by rw [hb]⟩⟩
    · rcases lastFrom_eq_some pre _ none hl with ⟨-, h0⟩ | ⟨pre2, h1⟩
      · cases h0
      · rw [h1] at hpre
        obtain ⟨-, ⟨c2, -, -, hm⟩, -⟩ := valid_at env reg pre2 [] _ hpre
        rw [hM] at hm
        cases hm
    · rcases lastFrom_eq_some pre _ none hl with ⟨-, h0⟩ | ⟨pre2, h1⟩
      · cases h0
      · exact ⟨pre2, _, h1, Or.inr ⟨sm, rfl⟩⟩
  · intro pre sm cm suf h
    rw [h] at hv
    exact (valid_at env reg pre suf _ hv).2.1.1

theorem nothing_after_fatal (env : Env) (reg : MediationClientMessage) (o : Option Conn)
    (cause : FatalCause) (e : Event) (h : allowed env reg o (some (Event.fatal cause)) e) :
    False := by
  cases e with
  | fatal c2 => cases c2 <;> simp [allowed] at h
  | close c2 => simp [allowed] at h
  | dial r => simp [allowed] at h
  | nilSocket => simp [allowed] at h
  | nilMarshalled => simp [allowed] at h
  | send c2 b2 f => simp [allowed] at h
  | read c2 r => simp [allowed, ListenReady] at h
  | dispatch sm cm => simp [allowed] at h
  | sleep k => simp [allowed] at h

theorem after_bad_read (env : Env) (reg : MediationClientMessage) (o : Option Conn) (c : Conn)
    (b : Bytes) (hu : env.Unmarshal b = none) (e : Event)
    (h : allowed env reg o (some (Event.read c (ReadResult.data b))) e) :
    e = Event.fatal FatalCause.unmarshal := by
  cases e with
  | fatal c2 => cases c2 <;> first | rfl | simp [allowed] at h
  | close c2 => simp [allowed] at h
  | dial r => simp [allowed] at h
  | nilSocket => simp [allowed] at h
  | nilMarshalled => simp [allowed] at h
  | send c2 b2 f => simp [allowed] at h
  | read c2 r => simp [allowed, ListenReady] at h
  | dispatch sm cm =>
    obtain ⟨-, c3, b3, h3, h4⟩ := h
    cases h3
    rw [hu] at h4
    cases h4
  | sleep k => simp [allowed] at h

/-- C7: when the bytes delivered by a read do not decode, the only thing that
happens after that read is the fatal exit: the trace ends with it (no further
read, no dispatch, no close, sleep or dial) and the run stops as fatal. -/
theorem decode_failure_is_fatal (env : Env) (reg : MediationClientMessage)
    (wsc : WebSocketCommunicator) (dials : List DialResult) (sends : List Bool)
    (inbound : List Inbound) (fuel : Nat) (pre suf : List Event) (c : Conn) (b : Bytes)
    (h : (RegisterAndListen env reg fuel (start wsc dials sends inbound)).2.trace =
      pre ++ Event.read c (ReadResult.data b) :: suf)
    (hu : env.Unmarshal b = none) :
    suf = [Event.fatal FatalCause.unmarshal] ∧
      (RegisterAndListen env reg fuel (start wsc dials sends inbound)).1 = Outcome.fatal := by
  have hp := run_post env reg wsc dials sends inbound fuel
  have hv := hp.inv.valid
  have hf := hp.final
  rw [h] at hv hf
  cases suf with
  | nil => exact absurd (by simp) (hf.1 c b)
  | cons e suf2 =>
    have he := after_bad_read env reg _ c b hu e (next_allowed env reg pre suf2 _ e hv)
    subst he
    cases suf2 with
    | nil => exact ⟨rfl, hf.2.1 FatalCause.unmarshal (by simp)⟩
    | cons e2 suf3 =>
      have hv2 : Valid env reg none none
          ((pre ++ [Event.read c (ReadResult.data b)]) ++
            Event.fatal FatalCause.unmarshal :: e2 :: suf3) := by
        simpa using hv
      exact (nothing_after_fatal env reg _ _ e2 (next_allowed env reg _ suf3 _ e2 hv2)).elim

theorem after_send (env : Env) (reg : MediationClientMessage) (o : Option Conn) (c : Conn)
    (b : Bytes) (failed : Bool) (e : Event)
    (h : allowed env reg o (some (Event.send c b failed)) e) : ∃ res, e = Event.read c res := by
  cases e with
  | read c2 r =>
    obtain ⟨-, h2⟩ := h
    rcases h2 with ⟨b2, f2, h3⟩ | h3 | ⟨sm, h3⟩
    · cases h3
      exact ⟨r, rfl⟩
    · cases h3
    · cases h3
  | fatal c2 => cases c2 <;> simp [allowed] at h
  | close c2 => simp [allowed] at h
  | dial r => simp [allowed] at h
  | nilSocket => simp [allowed] at h
  | nilMarshalled => simp [allowed] at h
  | send c2 b2 f => simp [allowed] at h
  | dispatch sm cm => simp [allowed] at h
  | sleep k => simp [allowed] at h

theorem after_close (env : Env) (reg : MediationClientMessage) (o : Option Conn) (c : Conn)
    (e : Event) (h : allowed env reg o (some (Event.close c)) e) :
    e = Event.sleep retryInterval := by
  cases e with
  | sleep k => obtain ⟨h1, -⟩ := h; rw [h1]
  | read c2 r => simp [allowed, ListenReady] at h
  | fatal c2 => cases c2 <;> simp [allowed] at h
  | close c2 => simp [allowed] at h
  | dial r => simp [allowed] at h
  | nilSocket => simp [allowed] at h
  | nilMarshalled => simp [allowed] at h
  | send c2 b2 f => simp [allowed] at h
  | dispatch sm cm => simp [allowed] at h

/-- C9 (amended): the result of the write of the registration message is ignored.
Whether the write failed or not, the next thing the supervisor does is a read on
the same connection (a run whose trace ends with the write is waiting in that
read or was cut off, it has not stopped); a connection is closed only right
after a read on it has failed, and the close is followed by the fixed sleep. -/
theorem send_error_ignored (env : Env) (reg : MediationClientMessage)
    (wsc : WebSocketCommunicator) (dials : List DialResult) (sends : List Bool)
    (inbound : List Inbound) (fuel : Nat) :
    (∀ pre c b failed e suf,
      (RegisterAndListen env reg fuel (start wsc dials sends inbound)).2.trace =
        pre ++ Event.send c b failed :: e :: suf → ∃ res, e = Event.read c res) ∧
    (∀ pre c b failed,
      (RegisterAndListen env reg fuel (start wsc dials sends inbound)).2.trace =
        pre ++ [Event.send c b failed] →
      (RegisterAndListen env reg fuel (start wsc dials sends inbound)).1 = Outcome.outOfFuel ∨
      (RegisterAndListen env reg fuel (start wsc dials sends inbound)).1 = Outcome.blocked) ∧
    (∀ pre c suf,
      (RegisterAndListen env reg fuel (start wsc dials sends inbound)).2.trace =
        pre ++ Event.close c :: suf → ∃ pre2, pre = pre2 ++ [Event.read c ReadResult.err]) ∧
    (∀ pre c e suf,
      (RegisterAndListen env reg fuel (start wsc dials sends inbound)).2.trace =
        pre ++ Event.close c :: e :: suf → e = Event.sleep retryInterval) := by
  have hp := run_post env reg wsc dials sends inbound fuel
  have hv := hp.inv.valid
  refine ⟨?_, ?_, ?_, ?_⟩
  · intro pre c b failed e suf h
    rw [h] at hv
    exact after_send env reg _ c b failed e (next_allowed env reg pre suf _ e hv)
  · intro pre c b failed h
    have hf := hp.final.2.2.2.1
    have h1 := hp.notReturned
    have h2 := hp.notNilDeref
    rw [h] at hf
    cases ho : (RegisterAndListen env reg fuel (start wsc dials sends inbound)).1 with
    | returned => exact absurd ho h1
    | nilDeref => exact absurd ho h2
    | fatal =>
      obtain ⟨cause, hc⟩ := hf ho
      simp at hc
    | blocked => exact Or.inr rfl
    | outOfFuel => exact Or.inl rfl
  · intro pre c suf h
    rw [h] at hv
    obtain ⟨-, ⟨-, hl⟩, -⟩ := valid_at env reg pre suf _ hv
    rcases lastFrom_eq_some pre _ none hl with ⟨-, h0⟩ | h1
    · cases h0
    · exact h1
  · intro pre c e suf h
    rw [h] at hv
    exact after_close env reg _ c e (next_allowed env reg pre suf _ e hv)

/-- C10: `RegisterAndListen` and `CloseAndRegisterAgain` never return normally,
from any state and with any fuel; hence after a failed dial `RegisterAndListen`
is the call of `CloseAndRegisterAgain` and nothing else, the statements after it
are not reached.  In every run of the supervisor there is no nil dereference, the
nil-socket branch of `SendClientMessage` is never taken, and every read and every
write is made on the one connection that is open at that moment. -/
theorem never_on_nil_connection (env : Env) (reg : MediationClientMessage)
    (wsc : WebSocketCommunicator) (dials : List DialResult) (sends : List Bool)
    (inbound : List Inbound) (fuel : Nat) :
    (∀ st m, (RegisterAndListen env reg m st).1 ≠ Outcome.returned ∧
      (CloseAndRegisterAgain env reg m st).1 ≠ Outcome.returned) ∧
    (∀ st m ds, env.newConfigFails (vmtServerUrl st.wsc) st.wsc.LocalAddress = false →
      st.dials = DialResult.err :: ds →
      RegisterAndListen env reg (m + 1) st =
        CloseAndRegisterAgain env reg m
          ({ st with dials := ds }.emit (Event.dial DialResult.err))) ∧
    (RegisterAndListen env reg fuel (start wsc dials sends inbound)).1 ≠ Outcome.nilDeref ∧
    Event.nilSocket ∉ (RegisterAndListen env reg fuel (start wsc dials sends inbound)).2.trace ∧
    (∀ pre c res suf,
      (RegisterAndListen env reg fuel (start wsc dials sends inbound)).2.trace =
        pre ++ Event.read c res :: suf → openHandles pre [] = [c]) ∧
    (∀ pre c b failed suf,
      (RegisterAndListen env reg fuel (start wsc dials sends inbound)).2.trace =
        pre ++ Event.send c b failed :: suf → openHandles pre [] = [c]) := by
  have hp := run_post env reg wsc dials sends inbound fuel
  have hv := hp.inv.valid
  refine ⟨fun st m => ⟨(never_returns env reg m).1 st, (never_returns env reg m).2.1 st⟩,
    ?_, hp.notNilDeref, ?_, ?_, ?_⟩
  · intro st m ds hcfg hd
    rw [RegisterAndListen]
    simp only [hcfg, hd]
    rw [thenDo_stop _ _ ((never_returns env reg m).2.1 _)]
    simp
  · intro hmem
    obtain ⟨pre, suf, h⟩ := List.append_of_mem hmem
    rw [h] at hv
    exact (valid_at env reg pre suf _ hv).2.1
  · intro pre c res suf h
    rw [h] at hv
    obtain ⟨hpre, ⟨ho, -⟩, -⟩ := valid_at env reg pre suf _ hv
    rw [openHandles_eq env reg pre hpre, ho]
    rfl
  · intro pre c b failed suf h
    rw [h] at hv
    obtain ⟨hpre, ⟨ho, -⟩, -⟩ := valid_at env reg pre suf _ hv
    rw [openHandles_eq env reg pre hpre, ho]
    rfl

theorem failed_dials_trace (env : Env) (reg : MediationClientMessage) (d : DialResult)
    (rest : List DialResult) (extra : Nat) :
    ∀ (k : Nat) (st : State), st.wsc.ws = none →
      env.newConfigFails (vmtServerUrl st.wsc) st.wsc.LocalAddress = false →
      st.dials = List.replicate k DialResult.err ++ d :: rest →
      ∃ suf, (RegisterAndListen env reg (3 * k + 1 + extra) st).2.trace =
        st.trace ++ (failedAttempts k ++ Event.dial d :: suf) := by
  intro k
  induction k with
  | zero =>
    intro st _ hcfg hd
    exact ((supervisor_extends env reg (3 * 0 + 1 + extra)).1 st).2 d rest (by omega) hcfg
      (by simpa using hd)
  | succ k ih =>
    intro st hws hcfg hd
    have hfuel : 3 * (k + 1) + 1 + extra = (3 * k + 1 + extra) + 3 := by omega
    rw [hfuel, failed_dial_step env reg _ st (List.replicate k DialResult.err ++ d :: rest)
      hws hcfg (by rw [hd]; rfl)]
    obtain ⟨suf, hsuf⟩ := ih
      (({ st with dials := List.replicate k DialResult.err ++ d :: rest }.emit
        (Event.dial DialResult.err)).emit (Event.sleep retryInterval))
      (by simpa using hws) (by simpa using hcfg) rfl
    exact ⟨suf, by rw [hsuf]; simp [failedAttempts]⟩

/-- C6: when the URLs parse and the first `k` dials all fail, then for every
amount of fuel from `3 * k + 1` on, the run starts with `k` times a failed dial
followed by a sleep of `retryInterval` = 10 seconds and then makes dial number
`k + 1`; the run has not returned.  This holds for every `k`: the retries are
not ended by any attempt count. -/
theorem retries_unbounded (env : Env) (reg : MediationClientMessage)
    (wsc : WebSocketCommunicator) (k : Nat) (d : DialResult) (rest : List DialResult)
    (sends : List Bool) (inbound : List Inbound) (extra : Nat)
    (hcfg : env.newConfigFails (vmtServerUrl wsc) wsc.LocalAddress = false) :
    (∃ suf, (RegisterAndListen env reg (3 * k + 1 + extra)
        (start wsc (List.replicate k DialResult.err ++ d :: rest) sends inbound)).2.trace =
      failedAttempts k ++ Event.dial d :: suf) ∧
    (RegisterAndListen env reg (3 * k + 1 + extra)
        (start wsc (List.replicate k DialResult.err ++ d :: rest) sends inbound)).1 ≠
      Outcome.returned ∧
    retryInterval = 10 := by
  refine ⟨?_, (never_returns env reg _).1 _, rfl⟩
  obtain ⟨suf, hsuf⟩ := failed_dials_trace env reg d rest extra k
    (start wsc (List.replicate k DialResult.err ++ d :: rest) sends inbound) rfl hcfg rfl
  exact ⟨suf, by rw [hsuf]; rfl⟩

theorem sample_run :
    RegisterAndListen sampleEnv sampleReg 10 sampleStart =
      (Outcome.fatal,
        { wsc := { sampleWsc with ws := some { id := 2 } }, trace := sampleTrace, dials := [],
          sends := [], inbound := [] }) := by
  decide

/-! ## Routing claims -/

/-- C1: with a handler set, a client message that carries container info and a
server message in which at least one variant is present, `handleServerMessage`
makes exactly one handler call: `AddTarget` when Ack is present, else `Validate`
when ValidationRequest is present, else `DiscoverTopology` when DiscoveryRequest
is present, else `HandleAction`; this also covers messages with several variants
present. The last three calls receive the server message itself. -/
theorem routes_to_first_present (wsc : WebSocketCommunicator)
    (serverMsg : MediationServerMessage) (clientMsg : MediationClientMessage)
    (hh : wsc.ServerMsgHandler ≠ none) (hc : clientMsg.GetContainerInfo ≠ none)
    (hv : serverMsg.GetAck ≠ none ∨ serverMsg.GetValidationRequest ≠ none ∨
      serverMsg.GetDiscoveryRequest ≠ none ∨ serverMsg.GetActionRequest ≠ none) :
    (handleServerMessage wsc serverMsg clientMsg).length = 1 ∧
    (serverMsg.GetAck ≠ none →
      handleServerMessage wsc serverMsg clientMsg = [HandlerCall.AddTarget]) ∧
    (serverMsg.GetAck = none → serverMsg.GetValidationRequest ≠ none →
      handleServerMessage wsc serverMsg clientMsg = [HandlerCall.Validate serverMsg]) ∧
    (serverMsg.GetAck = none → serverMsg.GetValidationRequest = none →
      serverMsg.GetDiscoveryRequest ≠ none →
      handleServerMessage wsc serverMsg clientMsg = [HandlerCall.DiscoverTopology serverMsg]) ∧
    (serverMsg.GetAck = none → serverMsg.GetValidationRequest = none →
      serverMsg.GetDiscoveryRequest = none → serverMsg.GetActionRequest ≠ none →
      handleServerMessage wsc serverMsg clientMsg = [HandlerCall.HandleAction serverMsg]) := by
  unfold handleServerMessage
  refine ⟨?_, ?_, ?_, ?_, ?_⟩
  · rw [if_neg hh]
    by_cases ha : serverMsg.GetAck = none
    · by_cases hb : serverMsg.GetValidationRequest = none
      · by_cases hd : serverMsg.GetDiscoveryRequest = none
        · have he : serverMsg.GetActionRequest ≠ none := by
            rcases hv with h | h | h | h
            · exact absurd ha h
            · exact absurd hb h
            · exact absurd hd h
            · exact h
          simp [ha, hb, hd, he]
        · simp [ha, hb, hd]
      · simp [ha, hb]
    · simp [ha, hc]
  · intro ha
    simp [hh, ha, hc]
  · intro ha hb
    simp [hh, ha, hb]
  · intro ha hb hd
    simp [hh, ha, hb, hd]
  · intro ha hb hd he
    simp [hh, ha, hb, hd, he]

theorem routes_to_first_present_example :
    handleServerMessage sampleWsc sampleAckAndValidation sampleReg = [HandlerCall.AddTarget] ∧
    handleServerMessage sampleWsc sampleRequest sampleReg =
      [HandlerCall.DiscoverTopology sampleRequest] :=
  ⟨(routes_to_first_present sampleWsc sampleAckAndValidation sampleReg (by decide) (by decide)
      (by decide)).2.1 (by decide),
   (routes_to_first_present sampleWsc sampleRequest sampleReg (by decide) (by decide)
      (by decide)).2.2.2.1 (by decide) (by decide) (by decide)⟩

/-- C2 as stated fails: for a server message with Ack and ValidationRequest both
present and a client message without container info, `handleServerMessage`
is not a no-op, it calls `Validate`. -/
theorem ack_without_registration_validates :
    sampleAckAndValidation.GetAck ≠ none ∧ sampleReply.GetContainerInfo = none ∧
    handleServerMessage sampleWsc sampleAckAndValidation sampleReply =
      [HandlerCall.Validate sampleAckAndValidation] ∧
    handleServerMessage sampleWsc sampleAckAndValidation sampleReply ≠ [] := by
  decide

/-- C2 (amended): for a server message whose Ack is present, `AddTarget` is called
exactly when a handler is set and the client message carries container info.
When the client message carries none, the Ack is passed over and the remaining
variants are tried in order: the call is `Validate`, `DiscoverTopology` or
`HandleAction` for the first of them that is present, and nothing is called only
when none of the three is present. -/
theorem ack_requires_registration (wsc : WebSocketCommunicator)
    (serverMsg : MediationServerMessage) (clientMsg : MediationClientMessage)
    (hack : serverMsg.GetAck ≠ none) :
    (HandlerCall.AddTarget ∈ handleServerMessage wsc serverMsg clientMsg ↔
      wsc.ServerMsgHandler ≠ none ∧ clientMsg.GetContainerInfo ≠ none) ∧
    (clientMsg.GetContainerInfo = none → serverMsg.GetValidationRequest = none →
      serverMsg.GetDiscoveryRequest = none → serverMsg.GetActionRequest = none →
      handleServerMessage wsc serverMsg clientMsg = []) ∧
    (clientMsg.GetContainerInfo = none → wsc.ServerMsgHandler ≠ none →
      serverMsg.GetValidationRequest ≠ none →
      handleServerMessage wsc serverMsg clientMsg = [HandlerCall.Validate serverMsg]) ∧
    (clientMsg.GetContainerInfo = none → wsc.ServerMsgHandler ≠ none →
      serverMsg.GetValidationRequest = none → serverMsg.GetDiscoveryRequest ≠ none →
      handleServerMessage wsc serverMsg clientMsg = [HandlerCall.DiscoverTopology serverMsg]) ∧
    (clientMsg.GetContainerInfo = none → wsc.ServerMsgHandler ≠ none →
      serverMsg.GetValidationRequest = none → serverMsg.GetDiscoveryRequest = none →
      serverMsg.GetActionRequest ≠ none →
      handleServerMessage wsc serverMsg clientMsg = [HandlerCall.HandleAction serverMsg]) := by
  unfold handleServerMessage
  refine ⟨?_, ?_, ?_, ?_, ?_⟩
  · by_cases hh : wsc.ServerMsgHandler = none
    · simp [hh]
    · by_cases hc : clientMsg.GetContainerInfo = none
      · simp only [hh, hc]
        split_ifs <;> simp_all
      · simp [hh, hc, hack]
  · intro hc hb hd he
    simp [hc, hb, hd, he]
  · intro hc hh hb
    simp [hc, hh, hb]
  · intro hc hh hb hd
    simp [hc, hh, hb, hd]
  · intro hc hh hb hd he
    simp [hc, hh, hb, hd, he]

theorem ack_requires_registration_example :
    handleServerMessage sampleWsc sampleAckAndValidation sampleReply =
      [HandlerCall.Validate sampleAckAndValidation] :=
  (ack_requires_registration sampleWsc sampleAckAndValidation sampleReply (by decide)).2.2.1
    (by decide) (by decide) (by decide)

/-- C3: without a handler set `handleServerMessage` returns with no handler call,
for every server message and every client message. -/
theorem absent_handler_noop (wsc : WebSocketCommunicator) (serverMsg : MediationServerMessage)
    (clientMsg : MediationClientMessage) (h : wsc.ServerMsgHandler = none) :
    handleServerMessage wsc serverMsg clientMsg = [] := by
  unfold handleServerMessage
  rw [if_pos h]

theorem absent_handler_noop_example :
    handleServerMessage sampleBareWsc sampleAckAndValidation sampleReg = [] :=
  absent_handler_noop sampleBareWsc sampleAckAndValidation sampleReg (by decide)

/-! ## Examples of the supervisor claims -/

theorem close_before_redial_example :
    (RegisterAndListen sampleEnv sampleReg 10 sampleStart).2.trace = sampleTrace ∧
    openHandles (sampleTrace.take 9) [] = [] ∧
    (openHandles (sampleTrace.take 5) []).length ≤ 1 :=
  ⟨by decide,
   (close_before_redial sampleEnv sampleReg sampleWsc sampleDials sampleSends sampleInbound 10).2.1 (sampleTrace.take 9)
     (DialResult.ok { id := 2 }) (sampleTrace.drop 10) (by decide),
   (close_before_redial sampleEnv sampleReg sampleWsc sampleDials sampleSends sampleInbound 10).2.2.1 (sampleTrace.take 5)
     (sampleTrace.drop 5) (by decide)⟩

theorem registration_resent_example :
    sampleEnv.Marshal sampleReg = MarshalResult.bytes [0, 1] ∧
    (((RegisterAndListen sampleEnv sampleReg 10 sampleStart).2.trace.drop 10 = [] ∧
        (RegisterAndListen sampleEnv sampleReg 10 sampleStart).1 = Outcome.blocked ∧
        (RegisterAndListen sampleEnv sampleReg 10 sampleStart).2.sends = []) ∨
      ∃ failed suf2, (RegisterAndListen sampleEnv sampleReg 10 sampleStart).2.trace.drop 10 =
        Event.send { id := 2 } [0, 1] failed :: suf2) ∧
    (∃ suf, (RegisterAndListen sampleEnv sampleReg (0 + 1)
        (start sampleWsc [DialResult.ok { id := 1 }] [true] [])).2.trace =
      (start sampleWsc [DialResult.ok { id := 1 }] [true] []).trace ++
        Event.dial (DialResult.ok { id := 1 }) :: Event.send { id := 1 } [0, 1] true :: suf) :=
  ⟨by decide,
   (registration_resent sampleEnv sampleReg sampleWsc sampleDials sampleSends sampleInbound 10
     [0, 1] (by decide)).1
     ((RegisterAndListen sampleEnv sampleReg 10 sampleStart).2.trace.take 9) { id := 2 }
     ((RegisterAndListen sampleEnv sampleReg 10 sampleStart).2.trace.drop 10) (by decide),
   (registration_resent sampleEnv sampleReg sampleWsc sampleDials sampleSends sampleInbound 10
     [0, 1] (by decide)).2.1
     (start sampleWsc [DialResult.ok { id := 1 }] [true] []) 0 { id := 1 } [] true []
     (by decide) (by decide) (by decide)⟩

theorem retries_unbounded_example :
    (∃ suf, (RegisterAndListen sampleEnv sampleReg (3 * 2 + 1 + 0)
        (start sampleWsc (List.replicate 2 DialResult.err ++ DialResult.ok { id := 1 } :: [])
          [] [])).2.trace =
      failedAttempts 2 ++ Event.dial (DialResult.ok { id := 1 }) :: suf) ∧
    (RegisterAndListen sampleEnv sampleReg (3 * 2 + 1 + 0)
        (start sampleWsc (List.replicate 2 DialResult.err ++ DialResult.ok { id := 1 } :: [])
          [] [])).1 ≠ Outcome.returned ∧
    retryInterval = 10 :=
  retries_unbounded sampleEnv sampleReg sampleWsc 2 (DialResult.ok { id := 1 }) [] [] [] 0
    (by decide)

theorem decode_failure_is_fatal_example :
    sampleEnv.Unmarshal [0] = none ∧
    sampleTrace.drop 12 = [Event.fatal FatalCause.unmarshal] ∧
    (RegisterAndListen sampleEnv sampleReg 10 sampleStart).1 = Outcome.fatal :=
  ⟨by decide,
   decode_failure_is_fatal sampleEnv sampleReg sampleWsc sampleDials sampleSends sampleInbound 10 (sampleTrace.take 11)
     (sampleTrace.drop 12) { id := 2 } [0] (by decide) (by decide)⟩

/-- C9 as stated fails: in the sample world the write of the registration on
connection 1 fails, and the supervisor goes on to read from connection 1; the
close of that connection comes only after a later read has failed. -/
theorem failed_send_is_followed_by_read :
    (RegisterAndListen sampleEnv sampleReg 10 sampleStart).2.trace =
      [Event.dial DialResult.err, Event.sleep 10, Event.dial (DialResult.ok { id := 1 }),
       Event.send { id := 1 } [0, 1] true, Event.read { id := 1 } (ReadResult.data [5])] ++
      sampleTrace.drop 5 := by
  decide

theorem send_error_ignored_example :
    ∃ res, sampleTrace.get ⟨4, by decide⟩ = Event.read { id := 1 } res :=
  (send_error_ignored sampleEnv sampleReg sampleWsc sampleDials sampleSends sampleInbound 10).1 (sampleTrace.take 3)
    { id := 1 } [0, 1] true (sampleTrace.get ⟨4, by decide⟩) (sampleTrace.drop 5) (by decide)

theorem never_on_nil_connection_example :
    RegisterAndListen sampleEnv sampleReg 10 sampleStart =
      CloseAndRegisterAgain sampleEnv sampleReg 9
        ({ sampleStart with dials := [DialResult.ok { id := 1 }, DialResult.ok { id := 2 }] }.emit
          (Event.dial DialResult.err)) ∧
    openHandles (sampleTrace.take 4) [] = [{ id := 1 }] :=
  ⟨(never_on_nil_connection sampleEnv sampleReg sampleWsc [] [] [] 0).2.1 sampleStart 9 _
     (by decide) (by decide),
   (never_on_nil_connection sampleEnv sampleReg sampleWsc sampleDials sampleSends sampleInbound 10).2.2.2.2.1
     (sampleTrace.take 4) { id := 1 } (ReadResult.data [5]) (sampleTrace.drop 5) (by decide)⟩

/-! ## Frames and the read buffer -/

/-- C8 fails on the code: one inbound frame of 1025 bytes is handed to the decoder
in two pieces, its first 1024 bytes by the first read and its last byte by the
next read; each piece is decoded and dispatched as if it were a message. -/
theorem long_frame_is_split :
    (RegisterAndListen sampleEnv sampleReg 3
        (start sampleWsc [DialResult.ok { id := 1 }] [false] [Inbound.frame longFrame])).2.trace =
      [Event.dial (DialResult.ok { id := 1 }), Event.send { id := 1 } [0, 1] false,
       Event.read { id := 1 } (ReadResult.data (List.replicate 1024 7)),
       Event.dispatch { sampleRequest with DiscoveryRequest := some 1024 } sampleReg,
       Event.read { id := 1 } (ReadResult.data [7]),
       Event.dispatch sampleRequest sampleReg] ∧
    List.replicate 1024 7 ≠ longFrame := by
  set_option maxRecDepth 100000 in decide

end Communicator
